import Mathlib

/-
Verification of the NanoComp core pipeline (src/nanocomp/NanoComp.py):
input resolution, run-identifier remapping, log-length derivation,
raw export and comparative-plot orchestration, embedded shallowly over
lists of rows with exact rational arithmetic.
-/

set_option autoImplicit false

namespace NanoComp

/-- Extended value produced by the numpy elementwise log10: a finite real,
negative infinity (log10 of zero) or an invalid-operation marker
(log10 of a negative number). -/
inductive FloatVal where
  | finite (x : ℝ)
  | negInf
  | nan

/-- Whether a FloatVal is a finite number. -/
def FloatVal.isFinite : FloatVal → Bool
  | .finite _ => true
  | .negInf => false
  | .nan => false

/-- One row of the unified dataset table.  `logLength` is `none` until the
deriver adds the `log length` column (pandas: the column is absent). -/
structure Row where
  lengths : ℚ
  quals : ℚ
  runIDs : String
  dataset : String
  percentIdentity : ℚ
  logLength : Option FloatVal

/-- Default row used for out-of-range indexing in statements. -/
def defaultRow : Row :=
  { lengths := 0, quals := 0, runIDs := "", dataset := "", percentIdentity := 0,
    logLength := none }

/-- Row of a table at index `i` (default row when out of range). -/
def rowAt (df : List Row) (i : ℕ) : Row :=
  (df[i]?).getD defaultRow

/-- The distinct `sysexit` call sites of the source, one constructor per
distinct diagnostic message. -/
inductive SysError where
  | headerNotFound
  | badFormat
  | nameCountMismatch
  deriving DecidableEq

/-- The three mutually exclusive input kinds (--fastq / --bam / --summary). -/
inductive InputKind where
  | fastq
  | bam
  | summary
  deriving DecidableEq

/-- The parsed command-line arguments relevant to the pipeline.  `kind` and
`files` model the selected mutually exclusive input source; `split_runs`
holds the lines of the --split_runs file when given; `pfx` is --prefix. -/
structure Args where
  kind : InputKind
  files : List String
  names : Option (List String)
  outdir : String
  pfx : String
  raw : Bool
  split_runs : Option (List String)
  plot : String
  title : Option String
  format : String
  threads : ℕ
  readtype : String

/-- get_args lines 133-135: if a (non-empty, per argparse nargs plus) name
list is supplied and its length differs from the selected file list, exit
with an error.  An empty supplied list is falsy in Python and skips the
check, mirrored here. -/
def check_names (args : Args) : Except SysError Unit :=
  match args.names with
  | none => .ok ()
  | some ns =>
      if ns.isEmpty then .ok ()
      else if ns.length = args.files.length then .ok ()
      else .error .nameCountMismatch

/-- Split a character list on tab characters (helper for pySplitTab). -/
def splitTabChars : List Char → List (List Char)
  | [] => [[]]
  | c :: cs =>
      let r := splitTabChars cs
      if c = '\t' then [] :: r
      else
        match r with
        | [] => [[c]]
        | g :: gs => (c :: g) :: gs

/-- Python str.split on a tab: the fields between tab characters, one
field more than there are tabs, never empty. -/
def pySplitTab (s : String) : List String :=
  (splitTabChars s.toList).map List.asString

/-- Python str.strip: remove leading and trailing whitespace. -/
def pyStrip (s : String) : String :=
  ((s.toList.dropWhile Char.isWhitespace).reverse.dropWhile Char.isWhitespace).reverse.asString

/-- Python str.upper, modelled on ASCII characters. -/
def pyUpper (s : String) : String :=
  (s.toList.map Char.toUpper).asString

/-- Python dict membership test on the association-list model. -/
def hasKey : List (String × String) → String → Bool
  | [], _ => false
  | p :: ps, k => if p.1 = k then true else hasKey ps k

/-- Python dict lookup on the association-list model: the first entry with
the given key (keys are unique by construction, making this the value). -/
def dictLookup : List (String × String) → String → Option String
  | [], _ => none
  | p :: ps, k => if p.1 = k then some p.2 else dictLookup ps k

/-- Python dict insertion on the association-list model: if the key is
present its value is updated in place, otherwise the pair is appended
(insertion order preserved, later inserts on an existing key overwrite). -/
def dictInsert (d : List (String × String)) (k v : String) : List (String × String) :=
  if hasKey d k then d.map (fun p => if p.1 = k then (k, v) else p)
  else d ++ [(k, v)]

/-- The dict comprehension of validate_split_runs_file line 144 over the
stripped data lines: skip empty lines, split each remaining line on tab,
insert run_id (field 1) mapped to name (field 0); a non-empty line with
fewer than two fields raises IndexError, caught as the format error. -/
def buildDict : List String → List (String × String) → Except SysError (List (String × String))
  | [], acc => .ok acc
  | c :: cs, acc =>
      if c = "" then buildDict cs acc
      else
        match pySplitTab c with
        | f0 :: f1 :: _ => buildDict cs (dictInsert acc f1 f0)
        | _ => .error .badFormat

/-- validate_split_runs_file lines 139-150: strip every line, require the
first stripped line, uppercased and split on tab, to equal the mandatory
header, then build the run_id-to-name dict from the remaining lines.
An empty file raises IndexError on content[0], caught as the format
error. -/
def validate_split_runs_file (lines : List String) : Except SysError (List (String × String)) :=
  match lines.map pyStrip with
  | [] => .error .badFormat
  | header :: rest =>
      if pySplitTab (pyUpper header) = ["NAME", "RUN_ID"] then buildDict rest []
      else .error .headerNotFound

/-- change_identifiers lines 153-156: for each (run_id, name) entry of the
dict in insertion order, overwrite `dataset` with `name` on every row whose
`runIDs` equals `run_id`. -/
def change_identifiers (datadf : List Row) (split_dict : List (String × String)) : List Row :=
  split_dict.foldl
    (fun df e => df.map (fun r => if r.runIDs = e.1 then { r with dataset := e.2 } else r))
    datadf

/-- numpy elementwise log10 on one exact rational input: the exact real
logarithm for positive input, negative infinity at zero, invalid (nan)
for negative input. -/
noncomputable def np_log10 (x : ℚ) : FloatVal :=
  if 0 < x then .finite (Real.logb 10 (x : ℝ))
  else if x = 0 then .negInf
  else .nan

/-- make_plots line 160: add the derived `log length` column,
elementwise log10 of `lengths`, to every row. -/
noncomputable def derive_log_length (df : List Row) : List Row :=
  df.map (fun r => { r with logLength := some (np_log10 r.lengths) })

/-- Insert into an ascending sorted list of rationals. -/
def insertSorted (x : ℚ) : List ℚ → List ℚ
  | [] => [x]
  | y :: ys => if x ≤ y then x :: y :: ys else y :: insertSorted x ys

/-- Ascending insertion sort of rationals (models the numpy sort inside
percentile). -/
def sortAsc (xs : List ℚ) : List ℚ :=
  xs.foldr insertSorted []

/-- numpy percentile with the default linear interpolation between closest
ranks: on the ascending sort s of the data, position h = q(n-1)/100, result
s[floor h] + (h - floor h) * (s[floor h + 1] - s[floor h]). -/
def npPercentile (xs : List ℚ) (q : ℚ) : ℚ :=
  let s := sortAsc xs
  let n := s.length
  if n = 0 then 0
  else
    let h : ℚ := q * ((n : ℚ) - 1) / 100
    let i : ℕ := (Rat.floor h).toNat
    let lo := s.getD i 0
    let hi := s.getD (i + 1) lo
    lo + (h - (i : ℚ)) * (hi - lo)

/-- One request issued to the plotting collaborator nanoplotter, one
constructor per call site shape in make_plots. -/
inductive PlotRequest where
  | barplot (df : List Row) (figformat : String) (path : String) (title : Option String)
  | violin_or_box (df : List Row) (y : String) (figformat : String) (path : String)
      (violin : Bool) (log : Bool) (title : Option String)

/-- Shape of a plot request: which kind of chart, of which column, with
which log flag. -/
inductive PlotShape where
  | bar
  | dist (y : String) (log : Bool)
  deriving DecidableEq

/-- The shape of a request. -/
def PlotRequest.shape : PlotRequest → PlotShape
  | .barplot _ _ _ _ => .bar
  | .violin_or_box _ y _ _ _ log _ => .dist y log

/-- Whether a request is the percent-identity distribution plot. -/
def isIdentityRequest : PlotRequest → Bool
  | .barplot _ _ _ _ => false
  | .violin_or_box _ y _ _ _ _ _ => y == "percentIdentity"

/-- Placeholder request used for out-of-range indexing in statements. -/
def dummyRequest : PlotRequest :=
  .barplot [] "" "" none

/-- os.path.join as used on (outdir, prefix). -/
def pathJoin (a b : String) : String :=
  if a = "" then b
  else if a.endsWith "/" then a ++ b
  else a ++ "/" ++ b

/-- make_plots lines 159-199: derive the log-length column, then issue the
bar plot, the lengths plot, the log-length plot (log-scaled, reusing the
derived table), the quals plot, and, only for bam input, the
percent-identity plot restricted to rows strictly above the first
percentile of the full percent-identity column. -/
noncomputable def make_plots (df : List Row) (path : String) (args : Args) : List PlotRequest :=
  let df1 := derive_log_length df
  let violin := args.plot == "violin"
  [PlotRequest.barplot df1 args.format path args.title,
   PlotRequest.violin_or_box df1 "lengths" args.format path violin false args.title,
   PlotRequest.violin_or_box df1 "log length" args.format path violin true args.title,
   PlotRequest.violin_or_box df1 "quals" args.format path violin false args.title]
  ++ (if args.kind = InputKind.bam then
        [PlotRequest.violin_or_box
          (df1.filter (fun r => npPercentile (df1.map Row.percentIdentity) 1 < r.percentIdentity))
          "percentIdentity" args.format path violin false args.title]
      else [])

/-- Observable outcome of a successful run: the optional raw-export
artifact (fixed file name with the serialized table snapshot) and the
sequence of issued plot requests. -/
structure RunResult where
  rawExport : Option (String × List Row)
  plots : List PlotRequest

/-- main lines 19-40, after external ingestion produced `datadf`: validate
the split-runs file when given (before anything else), then raw export of
the table as ingested, then remapping, then plotting. -/
noncomputable def nanocomp_main (args : Args) (datadf : List Row) : Except SysError RunResult :=
  match args.split_runs with
  | some lines =>
      match validate_split_runs_file lines with
      | .error e => .error e
      | .ok split_dict =>
          let rawExport := if args.raw then some ("NanoComp-data.tsv.gz", datadf) else none
          let df1 := change_identifiers datadf split_dict
          .ok { rawExport := rawExport, plots := make_plots df1 (pathJoin args.outdir args.pfx) args }
  | none =>
      let rawExport := if args.raw then some ("NanoComp-data.tsv.gz", datadf) else none
      .ok { rawExport := rawExport, plots := make_plots datadf (pathJoin args.outdir args.pfx) args }

/-- Option preference combinator: the second argument wins when present
(used to describe last-occurrence-wins over file lines). -/
def oor {α : Type} : Option α → Option α → Option α
  | a, none => a
  | _, some b => some b

/-- The (name) field a stripped data line contributes for a given run_id:
its first tab field when its second tab field equals the run_id. -/
def entryOf (c : String) (rid : String) : Option String :=
  if c = "" then none
  else
    match pySplitTab c with
    | f0 :: f1 :: _ => if f1 = rid then some f0 else none
    | _ => none

/-- The name carried by the last stripped data line mentioning a run_id. -/
def lastNameFor : List String → String → Option String
  | [], _ => none
  | c :: cs, rid => oor (entryOf c rid) (lastNameFor cs rid)

/-- How many stripped data lines mention a given run_id. -/
def ridOccurrences (rows : List String) (rid : String) : ℕ :=
  (rows.filter (fun c => (entryOf c rid).isSome)).length

/-- Decidable equality of Except values, for concrete evaluation. -/
instance {ε α : Type} [DecidableEq ε] [DecidableEq α] : DecidableEq (Except ε α) := fun x y =>
  match x, y with
  | .ok a, .ok b =>
      if h : a = b then isTrue (by rw [h]) else isFalse (fun hc => by cases hc; exact h rfl)
  | .ok _, .error _ => isFalse (fun hc => by cases hc)
  | .error _, .ok _ => isFalse (fun hc => by cases hc)
  | .error e, .error f =>
      if h : e = f then isTrue (by rw [h]) else isFalse (fun hc => by cases hc; exact h rfl)

/-- The effect of the whole dict on one row: rewrite `dataset` through the
dict when the row's `runIDs` is a key, keep the row otherwise. -/
def remapRow (d : List (String × String)) (r : Row) : Row :=
  match dictLookup d r.runIDs with
  | some n => { r with dataset := n }
  | none => r

theorem oor_none_right {α : Type} (a : Option α) : oor a none = a := rfl

theorem oor_some_right {α : Type} (a : Option α) (b : α) : oor a (some b) = some b := rfl

theorem oor_none_left {α : Type} (b : Option α) : oor none b = b := by
  cases b <;> rfl

theorem hasKey_iff_mem (d : List (String × String)) (k : String) :
    hasKey d k = true ↔ k ∈ d.map Prod.fst := by
  induction d with
  | nil => simp [hasKey]
  | cons p ps ih =>
      simp only [hasKey, List.map_cons, List.mem_cons]
      by_cases hp : p.1 = k
      · simp [hp]
      · simp only [hp, if_false, ih]
        constructor
        · exact Or.inr
        · rintro (hc | hc)
          · exact absurd hc.symm hp
          · exact hc

theorem dictLookup_eq_none (d : List (String × String)) (k : String)
    (h : k ∉ d.map Prod.fst) : dictLookup d k = none := by
  induction d with
  | nil => rfl
  | cons p ps ih =>
      simp only [List.map_cons, List.mem_cons, not_or] at h
      have hp : ¬p.1 = k := fun hc => h.1 hc.symm
      simp [dictLookup, hp, ih h.2]

theorem dictLookup_replace_ne (ps : List (String × String)) (k v k' : String)
    (hne : k' ≠ k) :
    dictLookup (ps.map (fun p => if p.1 = k then (k, v) else p)) k' = dictLookup ps k' := by
  induction ps with
  | nil => rfl
  | cons p ps ih =>
      have hkk : ¬k = k' := fun hc => hne hc.symm
      by_cases hp : p.1 = k
      · simp [dictLookup, hp, hkk, ih]
      · by_cases hk' : p.1 = k'
        · simp [dictLookup, hp, hk', hne, hkk]
        · simp [dictLookup, hp, hk', ih]

theorem dictLookup_replace_eq (ps : List (String × String)) (k v : String)
    (hk : hasKey ps k = true) :
    dictLookup (ps.map (fun p => if p.1 = k then (k, v) else p)) k = some v := by
  induction ps with
  | nil => simp [hasKey] at hk
  | cons p ps ih =>
      by_cases hp : p.1 = k
      · simp [dictLookup, hp]
      · have hk2 : hasKey ps k = true := by simpa [hasKey, hp] using hk
        simp [dictLookup, hp, ih hk2]

theorem dictLookup_append_single (d : List (String × String)) (k v k' : String) :
    dictLookup (d ++ [(k, v)]) k'
      = if k' = k then oor (some v) (dictLookup d k') else dictLookup d k' := by
  induction d with
  | nil =>
      by_cases h : k' = k
      · simp [dictLookup, h, oor_none_right]
      · have hkk : ¬k = k' := fun hc => h hc.symm
        simp [dictLookup, h, hkk]
  | cons p ps ih =>
      by_cases hp : p.1 = k'
      · by_cases h : k' = k <;> simp [dictLookup, hp, h, oor_some_right, ih]
      · simp [dictLookup, hp, ih]

theorem dictLookup_dictInsert (d : List (String × String)) (k v k' : String) :
    dictLookup (dictInsert d k v) k' = if k' = k then some v else dictLookup d k' := by
  unfold dictInsert
  by_cases hk : hasKey d k
  · by_cases h : k' = k
    · subst h
      simp [hk, dictLookup_replace_eq d k' v hk]
    · simp [hk, h, dictLookup_replace_ne d k v k' h]
  · have hnone : dictLookup d k = none := by
      refine dictLookup_eq_none d k (fun hmem => ?_)
      exact absurd ((hasKey_iff_mem d k).mpr hmem) (by simpa using hk)
    by_cases h : k' = k
    · subst h
      simp [hk, dictLookup_append_single, hnone, oor_none_right]
    · simp [hk, h, dictLookup_append_single]

theorem keys_replace (d : List (String × String)) (k v : String) :
    (d.map (fun p => if p.1 = k then (k, v) else p)).map Prod.fst = d.map Prod.fst := by
  induction d with
  | nil => rfl
  | cons p ps ih =>
      by_cases hp : p.1 = k <;> simp [hp, ih]

theorem keys_dictInsert_nodup (d : List (String × String)) (k v : String)
    (h : (d.map Prod.fst).Nodup) : ((dictInsert d k v).map Prod.fst).Nodup := by
  unfold dictInsert
  by_cases hk : hasKey d k
  · simp only [hk, if_true]
    rw [keys_replace]
    exact h
  · have hmem : k ∉ d.map Prod.fst := fun hmem => by
      simp [(hasKey_iff_mem d k).mpr hmem] at hk
    have hcat : (d.map Prod.fst ++ [k]).Nodup := by
      rw [← List.concat_eq_append]
      exact h.concat hmem
    simp only [hk, if_false, List.map_append]
    simpa using hcat

theorem buildDict_nodup_keys :
    ∀ (rows : List String) (acc d : List (String × String)),
      buildDict rows acc = .ok d → (acc.map Prod.fst).Nodup → (d.map Prod.fst).Nodup := by
  intro rows
  induction rows with
  | nil =>
      intro acc d h hnd
      cases h
      exact hnd
  | cons c cs ih =>
      intro acc d h hnd
      by_cases hc : c = ""
      · exact ih acc d (by simpa [buildDict, hc] using h) hnd
      · rcases hsplit : pySplitTab c with _ | ⟨f0, _ | ⟨f1, rest⟩⟩
        · simp [buildDict, hc, hsplit] at h
        · simp [buildDict, hc, hsplit] at h
        · exact ih (dictInsert acc f1 f0) d (by simpa [buildDict, hc, hsplit] using h)
            (keys_dictInsert_nodup acc f1 f0 hnd)

theorem buildDict_lookup :
    ∀ (rows : List String) (acc d : List (String × String)),
      buildDict rows acc = .ok d →
      ∀ k, dictLookup d k = oor (dictLookup acc k) (lastNameFor rows k) := by
  intro rows
  induction rows with
  | nil =>
      intro acc d h k
      cases h
      rfl
  | cons c cs ih =>
      intro acc d h k
      by_cases hc : c = ""
      · rw [ih acc d (by simpa [buildDict, hc] using h) k]
        simp [lastNameFor, entryOf, hc, oor_none_left]
      · rcases hsplit : pySplitTab c with _ | ⟨f0, _ | ⟨f1, rest⟩⟩
        · simp [buildDict, hc, hsplit] at h
        · simp [buildDict, hc, hsplit] at h
        · have hstep := ih (dictInsert acc f1 f0) d
            (by simpa [buildDict, hc, hsplit] using h) k
          rw [hstep, dictLookup_dictInsert]
          simp only [lastNameFor, entryOf, hc, if_false, hsplit]
          cases hlast : lastNameFor cs k with
          | some n => simp [hlast, oor_some_right]
          | none =>
              by_cases hk : k = f1
              · subst hk
                simp [hlast, oor_none_right, oor_some_right, oor_none_left]
              · have hf : ¬f1 = k := fun hc => hk hc.symm
                simp [hlast, hk, hf, oor_none_right]

theorem buildDict_ok_rows :
    ∀ (rows : List String) (acc d : List (String × String)),
      buildDict rows acc = .ok d →
      ∀ c ∈ rows, c ≠ "" → 2 ≤ (pySplitTab c).length := by
  intro rows
  induction rows with
  | nil => intro acc d _ c hc; simp at hc
  | cons c cs ih =>
      intro acc d h cx hcx hne
      by_cases hc : c = ""
      · rcases List.mem_cons.mp hcx with hcx | hcx
        · exact absurd (hcx.trans hc) hne
        · exact ih acc d (by simpa [buildDict, hc] using h) cx hcx hne
      · rcases hsplit : pySplitTab c with _ | ⟨f0, _ | ⟨f1, rest⟩⟩
        · simp [buildDict, hc, hsplit] at h
        · simp [buildDict, hc, hsplit] at h
        · rcases List.mem_cons.mp hcx with hcx | hcx
          · subst hcx
            simp [hsplit]
          · exact ih (dictInsert acc f1 f0) d
              (by simpa [buildDict, hc, hsplit] using h) cx hcx hne

theorem buildDict_ok_of_rows :
    ∀ (rows : List String) (acc : List (String × String)),
      (∀ c ∈ rows, c ≠ "" → 2 ≤ (pySplitTab c).length) →
      ∃ d, buildDict rows acc = .ok d := by
  intro rows
  induction rows with
  | nil => intro acc _; exact ⟨acc, rfl⟩
  | cons c cs ih =>
      intro acc hrows
      by_cases hc : c = ""
      · rcases ih acc (fun cx hcx => hrows cx (List.mem_cons_of_mem _ hcx)) with ⟨d, hd⟩
        exact ⟨d, by simpa [buildDict, hc] using hd⟩
      · rcases hsplit : pySplitTab c with _ | ⟨f0, _ | ⟨f1, rest⟩⟩
        · have := hrows c (List.mem_cons_self c cs) hc
          simp [hsplit] at this
        · have := hrows c (List.mem_cons_self c cs) hc
          simp [hsplit] at this
        · rcases ih (dictInsert acc f1 f0) (fun cx hcx => hrows cx (List.mem_cons_of_mem _ hcx))
            with ⟨d, hd⟩
          exact ⟨d, by simpa [buildDict, hc, hsplit] using hd⟩

theorem dictLookup_mem_snd (d : List (String × String)) (k n : String)
    (h : dictLookup d k = some n) : n ∈ d.map Prod.snd := by
  induction d with
  | nil => simp [dictLookup] at h
  | cons p ps ih =>
      by_cases hp : p.1 = k
      · simp only [dictLookup, hp, if_true, Option.some.injEq] at h
        simp [h]
      · simp only [dictLookup, hp, if_false] at h
        simp [ih h]

theorem mem_of_dictLookup_eq_some (d : List (String × String)) (k v : String)
    (h : dictLookup d k = some v) : (k, v) ∈ d := by
  induction d with
  | nil => simp [dictLookup] at h
  | cons p ps ih =>
      by_cases hp : p.1 = k
      · rw [dictLookup, if_pos hp] at h
        have hv : p.2 = v := Option.some.inj h
        have hpkv : p = (k, v) := by
          cases p
          simp_all

        rw [← hpkv]
        exact List.mem_cons_self p ps
      · rw [dictLookup, if_neg hp] at h
        exact List.mem_cons_of_mem _ (ih h)

theorem dictLookup_eq_some_of_mem :
    ∀ (d : List (String × String)), (d.map Prod.fst).Nodup →
      ∀ (k v : String), (k, v) ∈ d → dictLookup d k = some v := by
  intro d
  induction d with
  | nil => intro _ k v h; simp at h
  | cons p ps ih =>
      intro hnd k v h
      simp only [List.map_cons, List.nodup_cons] at hnd
      rcases List.mem_cons.mp h with heq | hmem
      · subst heq
        simp [dictLookup]
      · have hp : ¬p.1 = k := fun hc =>
          hnd.1 (hc ▸ List.mem_map_of_mem Prod.fst hmem)
        rw [dictLookup, if_neg hp]
        exact ih hnd.2 k v hmem

theorem change_identifiers_nil (df : List Row) : change_identifiers df [] = df := rfl

theorem change_identifiers_cons (df : List Row) (e : String × String)
    (es : List (String × String)) :
    change_identifiers df (e :: es)
      = change_identifiers
          (df.map (fun r => if r.runIDs = e.1 then { r with dataset := e.2 } else r)) es := rfl

theorem remapRow_step (e : String × String) (es : List (String × String)) (r : Row)
    (hmem : e.1 ∉ es.map Prod.fst) :
    remapRow es (if r.runIDs = e.1 then { r with dataset := e.2 } else r)
      = remapRow (e :: es) r := by
  by_cases hr : r.runIDs = e.1
  · have hes : dictLookup es e.1 = none := dictLookup_eq_none es e.1 hmem
    simp [hr, remapRow, dictLookup, hes]
  · have he : ¬e.1 = r.runIDs := fun hc => hr hc.symm
    simp [hr, remapRow, dictLookup, he]

theorem change_identifiers_getElem? (df : List Row) (d : List (String × String)) (i : ℕ)
    (hnd : (d.map Prod.fst).Nodup) :
    (change_identifiers df d)[i]? = (df[i]?).map (remapRow d) := by
  induction d generalizing df with
  | nil =>
      cases h : df[i]? <;> simp [change_identifiers_nil, h, remapRow, dictLookup]
  | cons e es ih =>
      simp only [List.map_cons, List.nodup_cons] at hnd
      rw [change_identifiers_cons, ih _ hnd.2, List.getElem?_map, Option.map_map]
      cases h : df[i]? with
      | none => rfl
      | some r => simp [Function.comp, remapRow_step e es r hnd.1]

theorem change_identifiers_length (df : List Row) (d : List (String × String)) :
    (change_identifiers df d).length = df.length := by
  induction d generalizing df with
  | nil => rfl
  | cons e es ih => rw [change_identifiers_cons, ih, List.length_map]

theorem change_identifiers_frame {β : Type} (g : Row → β)
    (hg : ∀ (r : Row) (s : String), g { r with dataset := s } = g r)
    (df : List Row) (d : List (String × String)) (i : ℕ) :
    ((change_identifiers df d)[i]?).map g = (df[i]?).map g := by
  induction d generalizing df with
  | nil => rfl
  | cons e es ih =>
      rw [change_identifiers_cons, ih, List.getElem?_map, Option.map_map]
      cases h : df[i]? with
      | none => rfl
      | some r =>
          simp only [Option.map_some']
          congr 1
          show g (if r.runIDs = e.1 then { r with dataset := e.2 } else r) = g r
          by_cases hr : r.runIDs = e.1
          · rw [if_pos hr]
            exact hg r e.2
          · rw [if_neg hr]

theorem rowAt_change_of_lt (df : List Row) (d : List (String × String)) (i : ℕ)
    (hnd : (d.map Prod.fst).Nodup) (hi : i < df.length) :
    rowAt (change_identifiers df d) i = remapRow d (rowAt df i) := by
  unfold rowAt
  rw [change_identifiers_getElem? df d i hnd, List.getElem?_eq_getElem hi]
  rfl

theorem rowAt_mem (df : List Row) (i : ℕ) (hi : i < df.length) : rowAt df i ∈ df := by
  unfold rowAt
  rw [List.getElem?_eq_getElem hi]
  exact List.getElem_mem hi

theorem derive_getElem? (df : List Row) (i : ℕ) :
    (derive_log_length df)[i]?
      = (df[i]?).map (fun r => { r with logLength := some (np_log10 r.lengths) }) :=
  List.getElem?_map _ _ _

theorem derive_length (df : List Row) : (derive_log_length df).length = df.length :=
  List.length_map _ _

theorem derive_map_pid (df : List Row) :
    (derive_log_length df).map Row.percentIdentity = df.map Row.percentIdentity := by
  unfold derive_log_length
  rw [List.map_map]
  rfl

theorem validate_eq (lines : List String) (header : String) (rows : List String)
    (h : lines.map pyStrip = header :: rows) :
    validate_split_runs_file lines
      = if pySplitTab (pyUpper header) = ["NAME", "RUN_ID"] then buildDict rows []
        else .error .headerNotFound := by
  unfold validate_split_runs_file
  rw [h]

/-- Example rows, table, dict and args used to instantiate hypotheses. -/
def exRow : Row :=
  { lengths := 10, quals := 12, runIDs := "R1", dataset := "orig", percentIdentity := 90,
    logLength := none }

def exRow2 : Row :=
  { lengths := 5, quals := 7, runIDs := "R2", dataset := "keepme", percentIdentity := 80,
    logLength := none }

def exDf : List Row := [exRow, exRow2]

def exDict : List (String × String) := [("R1", "SampleX")]

def exArgs : Args :=
  { kind := .fastq, files := ["reads1.fastq", "reads2.fastq"], names := some ["A", "B"],
    outdir := "out", pfx := "", raw := false, split_runs := none, plot := "violin",
    title := none, format := "png", threads := 4, readtype := "1D" }

/-- C2: after the remap step, a row whose runIDs is a key of the
run-identifier map (unique keys) carries that key's mapped name as its
dataset, a row whose runIDs matches no key keeps its original dataset
(both cases summarized by the dict lookup with the original label as the
default), and every remapped dataset label lies in the union of the
original labels and the mapping names. -/
theorem c2_remap_dataset (df : List Row) (d : List (String × String)) (i : ℕ)
    (hkeys : (d.map Prod.fst).Nodup) (hi : i < df.length) :
    (rowAt (change_identifiers df d) i).dataset
        = (dictLookup d (rowAt df i).runIDs).getD (rowAt df i).dataset
    ∧ (rowAt (change_identifiers df d) i).dataset ∈ df.map Row.dataset ++ d.map Prod.snd := by
  have hrow := rowAt_change_of_lt df d i hkeys hi
  constructor
  · rw [hrow]
    unfold remapRow
    cases h : dictLookup d (rowAt df i).runIDs <;> simp [h]
  · rw [hrow]
    unfold remapRow
    cases h : dictLookup d (rowAt df i).runIDs with
    | some n =>
        have hn : n ∈ d.map Prod.snd := dictLookup_mem_snd d _ n h
        simp [List.mem_append, hn]
    | none =>
        have hmem : (rowAt df i).dataset ∈ df.map Row.dataset :=
          List.mem_map_of_mem Row.dataset (rowAt_mem df i hi)
        simp [List.mem_append, hmem]

theorem c2_remap_dataset_witness :
    (rowAt (change_identifiers exDf exDict) 0).dataset
        = (dictLookup exDict (rowAt exDf 0).runIDs).getD (rowAt exDf 0).dataset
    ∧ (rowAt (change_identifiers exDf exDict) 0).dataset
        ∈ exDf.map Row.dataset ++ exDict.map Prod.snd :=
  c2_remap_dataset exDf exDict 0 (by decide) (by decide)

/-- C10: the remap step only ever rewrites the `dataset` column: it
preserves the number of rows and, at every index, the `lengths`, `quals`,
`runIDs`, `percentIdentity` and `log length` values. -/
theorem c10_frame_effect (df : List Row) (d : List (String × String)) (i : ℕ) :
    (change_identifiers df d).length = df.length
    ∧ (rowAt (change_identifiers df d) i).lengths = (rowAt df i).lengths
    ∧ (rowAt (change_identifiers df d) i).quals = (rowAt df i).quals
    ∧ (rowAt (change_identifiers df d) i).runIDs = (rowAt df i).runIDs
    ∧ (rowAt (change_identifiers df d) i).percentIdentity = (rowAt df i).percentIdentity
    ∧ (rowAt (change_identifiers df d) i).logLength = (rowAt df i).logLength := by
  refine ⟨change_identifiers_length df d, ?_⟩
  have hf := change_identifiers_frame
    (fun r => (r.lengths, r.quals, r.runIDs, r.percentIdentity, r.logLength))
    (fun r s => rfl) df d i
  cases h : df[i]? with
  | none =>
      have hnone : (change_identifiers df d)[i]? = none := by
        rw [List.getElem?_eq_none_iff] at h ⊢
        rw [change_identifiers_length]
        exact h
      unfold rowAt
      rw [h, hnone]
      exact ⟨rfl, rfl, rfl, rfl, rfl⟩
  | some r =>
      rw [h] at hf
      simp only [Option.map_some'] at hf
      rcases Option.map_eq_some'.mp hf with ⟨s, hs, hgs⟩
      unfold rowAt
      rw [h, hs]
      simp only [Option.getD_some]
      simpa only [Prod.mk.injEq] using hgs

/-- C3: when the mapping file parses successfully and its data lines
mention the same run_id on two or more lines, the constructed map assigns
that run_id the name from the last such line, and after the remap every
row with that runIDs value carries exactly that name as its dataset. -/
theorem c3_duplicate_run_ids (lines : List String) (header : String) (rows : List String)
    (d : List (String × String)) (rid name : String) (df : List Row) (i : ℕ)
    (hlines : lines.map pyStrip = header :: rows)
    (hok : validate_split_runs_file lines = .ok d)
    (hdup : 2 ≤ ridOccurrences rows rid)
    (hlast : lastNameFor rows rid = some name)
    (hi : i < df.length)
    (hrid : (rowAt df i).runIDs = rid) :
    dictLookup d rid = some name
    ∧ (rowAt (change_identifiers df d) i).dataset = name := by
  rw [validate_eq lines header rows hlines] at hok
  by_cases hh : pySplitTab (pyUpper header) = ["NAME", "RUN_ID"]
  · rw [if_pos hh] at hok
    have hlk := buildDict_lookup rows [] d hok rid
    rw [hlast, oor_some_right] at hlk
    refine ⟨hlk, ?_⟩
    have hnd : (d.map Prod.fst).Nodup := buildDict_nodup_keys rows [] d hok (by simp)
    rw [rowAt_change_of_lt df d i hnd hi]
    unfold remapRow
    rw [hrid, hlk]
  · rw [if_neg hh] at hok
    cases hok

theorem c3_duplicate_run_ids_witness :
    dictLookup [("R1", "S2")] "R1" = some "S2"
    ∧ (rowAt (change_identifiers exDf [("R1", "S2")]) 0).dataset = "S2" :=
  c3_duplicate_run_ids ["NAME\tRUN_ID", "S1\tR1", "S2\tR1"] "NAME\tRUN_ID"
    ["S1\tR1", "S2\tR1"] [("R1", "S2")] "R1" "S2" exDf 0
    (by decide) (by decide) (by decide) (by decide) (by decide) (by decide)

/-- C6: a mapping file whose first stripped line, uppercased and split on
tab, is not exactly the two-field header NAME, RUN_ID fails with the
header-naming error, so no data rows are processed and no map entries
are produced. -/
theorem c6_header_mismatch (lines : List String) (header : String) (rows : List String)
    (hlines : lines.map pyStrip = header :: rows)
    (hbad : pySplitTab (pyUpper header) ≠ ["NAME", "RUN_ID"]) :
    validate_split_runs_file lines = .error .headerNotFound := by
  rw [validate_eq lines header rows hlines, if_neg hbad]

theorem c6_header_mismatch_witness :
    validate_split_runs_file ["ID\tNAME", "a\tb"] = .error .headerNotFound :=
  c6_header_mismatch ["ID\tNAME", "a\tb"] "ID\tNAME" ["a\tb"] (by decide) (by decide)

/-- C7: a mapping file with a non-empty stripped data row of fewer than
two tab-separated fields fails with an error (no map is returned), while
with the mandatory header and only rows of at least two fields (or empty
rows) parsing returns a map. -/
theorem c7_short_data_row (lines : List String) (header : String) (rows : List String)
    (hlines : lines.map pyStrip = header :: rows) :
    ((∃ c ∈ rows, c ≠ "" ∧ (pySplitTab c).length < 2) →
        ∃ e, validate_split_runs_file lines = .error e)
    ∧ (pySplitTab (pyUpper header) = ["NAME", "RUN_ID"] →
        (∀ c ∈ rows, c ≠ "" → 2 ≤ (pySplitTab c).length) →
        ∃ d, validate_split_runs_file lines = .ok d) := by
  rw [validate_eq lines header rows hlines]
  constructor
  · rintro ⟨c, hc, hne, hlen⟩
    by_cases hh : pySplitTab (pyUpper header) = ["NAME", "RUN_ID"]
    · rw [if_pos hh]
      cases hbuild : buildDict rows [] with
      | ok d => exact absurd (buildDict_ok_rows rows [] d hbuild c hc hne) (by omega)
      | error e => exact ⟨e, rfl⟩
    · rw [if_neg hh]
      exact ⟨.headerNotFound, rfl⟩
  · intro hh hgood
    rw [if_pos hh]
    exact buildDict_ok_of_rows rows [] hgood

theorem c7_short_data_row_witness :
    ((∃ c ∈ ["solo"], c ≠ "" ∧ (pySplitTab c).length < 2) →
        ∃ e, validate_split_runs_file ["NAME\tRUN_ID", "solo"] = .error e)
    ∧ (pySplitTab (pyUpper "NAME\tRUN_ID") = ["NAME", "RUN_ID"] →
        (∀ c ∈ ["solo"], c ≠ "" → 2 ≤ (pySplitTab c).length) →
        ∃ d, validate_split_runs_file ["NAME\tRUN_ID", "solo"] = .ok d) :=
  c7_short_data_row ["NAME\tRUN_ID", "solo"] "NAME\tRUN_ID" ["solo"] (by decide)

/-- C8: when a (non-empty) name list is supplied, the cardinality check
succeeds exactly when it has as many entries as the selected file list and
otherwise fails with the name-count error; with no names supplied it
always succeeds.  In the source this check runs inside get_args, before
any output directory creation, ingestion or other I/O. -/
theorem c8_name_count (args : Args) (ns : List String)
    (hsome : args.names = some ns) (hne : ns ≠ []) :
    (check_names args = .ok () ↔ ns.length = args.files.length)
    ∧ (check_names args = .error .nameCountMismatch ↔ ns.length ≠ args.files.length)
    ∧ check_names { args with names := none } = .ok () := by
  have hempty : ns.isEmpty = false := by
    cases ns with
    | nil => exact absurd rfl hne
    | cons a l => rfl
  refine ⟨?_, ?_, by simp [check_names]⟩ <;>
    by_cases hlen : ns.length = args.files.length <;>
      simp [check_names, hsome, hempty, hlen]

theorem c8_name_count_witness :
    (check_names exArgs = .ok () ↔ ("A" :: ["B"]).length = exArgs.files.length)
    ∧ (check_names exArgs = .error .nameCountMismatch
        ↔ ("A" :: ["B"]).length ≠ exArgs.files.length)
    ∧ check_names { exArgs with names := none } = .ok () :=
  c8_name_count exArgs ["A", "B"] (by decide) (by decide)

/-- C9: the deriver preserves the row count and writes, at every index,
log length = log10(lengths); for positive length the value is exactly the
finite real base-10 logarithm, and for non-positive length the value is
non-finite (negative infinity or nan) and propagates unguarded. -/
theorem c9_log_length_derivation (df : List Row) (i : ℕ) (hi : i < df.length) :
    (derive_log_length df).length = df.length
    ∧ (rowAt (derive_log_length df) i).logLength = some (np_log10 (rowAt df i).lengths)
    ∧ (0 < (rowAt df i).lengths →
        np_log10 (rowAt df i).lengths
          = FloatVal.finite (Real.logb 10 ((rowAt df i).lengths : ℝ)))
    ∧ ((rowAt df i).lengths ≤ 0 → (np_log10 (rowAt df i).lengths).isFinite = false) := by
  refine ⟨derive_length df, ?_, ?_, ?_⟩
  · unfold rowAt
    rw [derive_getElem?, List.getElem?_eq_getElem hi]
    rfl
  · intro hpos
    unfold np_log10
    rw [if_pos hpos]
  · intro hnonpos
    unfold np_log10
    have hnot : ¬0 < (rowAt df i).lengths := not_lt.mpr hnonpos
    rw [if_neg hnot]
    by_cases h0 : (rowAt df i).lengths = 0
    · rw [if_pos h0]
      rfl
    · rw [if_neg h0]
      rfl

theorem c9_log_length_derivation_witness :
    (derive_log_length exDf).length = exDf.length
    ∧ (rowAt (derive_log_length exDf) 0).logLength = some (np_log10 (rowAt exDf 0).lengths)
    ∧ (0 < (rowAt exDf 0).lengths →
        np_log10 (rowAt exDf 0).lengths
          = FloatVal.finite (Real.logb 10 ((rowAt exDf 0).lengths : ℝ)))
    ∧ ((rowAt exDf 0).lengths ≤ 0 → (np_log10 (rowAt exDf 0).lengths).isFinite = false) :=
  c9_log_length_derivation exDf 0 (by decide)

/-- C4: the issued plot requests contain exactly one percent-identity
request when the bam input kind was selected and none otherwise; that
request's data subset is the derived table filtered to rows whose
percentIdentity is strictly greater than the first percentile (linear
interpolation between closest ranks) of the percentIdentity column of the
full table, and membership in the subset is exactly that condition. -/
theorem c4_identity_filter (df : List Row) (path : String) (args : Args) :
    (make_plots df path args).filter isIdentityRequest
      = (if args.kind = InputKind.bam then
          [PlotRequest.violin_or_box
            ((derive_log_length df).filter
              (fun r => npPercentile (df.map Row.percentIdentity) 1 < r.percentIdentity))
            "percentIdentity" args.format path (args.plot == "violin") false args.title]
        else [])
    ∧ ∀ r : Row,
        r ∈ (derive_log_length df).filter
            (fun r => npPercentile (df.map Row.percentIdentity) 1 < r.percentIdentity)
          ↔ r ∈ derive_log_length df
            ∧ npPercentile (df.map Row.percentIdentity) 1 < r.percentIdentity := by
  constructor
  · by_cases hk : args.kind = InputKind.bam
    · simp [make_plots, hk, derive_map_pid, isIdentityRequest]
    · simp [make_plots, hk, isIdentityRequest]
  · intro r
    simp [List.mem_filter]

/-- C5: the orchestration always issues, in order, the bar plot, the
lengths distribution, the log-length distribution flagged log-scaled, the
quals distribution, and then the percent-identity distribution exactly
when the bam kind was selected — five requests for bam input and four
otherwise — and the log-length request reuses the table carrying the
derived column. -/
theorem c5_plot_order (df : List Row) (path : String) (args : Args) :
    (make_plots df path args).map PlotRequest.shape
      = [PlotShape.bar, PlotShape.dist "lengths" false, PlotShape.dist "log length" true,
         PlotShape.dist "quals" false]
        ++ (if args.kind = InputKind.bam then [PlotShape.dist "percentIdentity" false] else [])
    ∧ (make_plots df path args).length = (if args.kind = InputKind.bam then 5 else 4)
    ∧ (make_plots df path args).getD 2 dummyRequest
        = PlotRequest.violin_or_box (derive_log_length df) "log length" args.format path
            (args.plot == "violin") true args.title := by
  by_cases hk : args.kind = InputKind.bam <;>
    refine ⟨?_, ?_, ?_⟩ <;>
      simp [make_plots, hk, PlotRequest.shape, List.getD]

/-- Concrete arguments for the raw-export run: fastq input, raw export
enabled, a split-runs mapping file renaming run R1 to SampleX. -/
def c1Args : Args :=
  { kind := .fastq, files := ["reads.fastq"], names := none, outdir := "out", pfx := "",
    raw := true, split_runs := some ["NAME\tRUN_ID", "SampleX\tR1"], plot := "violin",
    title := none, format := "png", threads := 4, readtype := "1D" }

def c1Df : List Row := [exRow]

/-- C1 counterexample: with raw export enabled and a mapping file renaming
run R1 to SampleX, the exported artifact holds the table as ingested — its
only row still has dataset "orig" and no log length column — while the
table after remapping and derivation has dataset "SampleX" and a log
length value, so the exported table is not the post-remap post-derivation
table and the pipeline order is not Remapper, Deriver, Raw Export. -/
theorem c1_export_counterexample :
    validate_split_runs_file ["NAME\tRUN_ID", "SampleX\tR1"] = .ok [("R1", "SampleX")]
    ∧ (nanocomp_main c1Args c1Df).map RunResult.rawExport
        = .ok (some ("NanoComp-data.tsv.gz", c1Df))
    ∧ (rowAt c1Df 0).dataset = "orig"
    ∧ (rowAt c1Df 0).logLength = none
    ∧ (rowAt (derive_log_length (change_identifiers c1Df [("R1", "SampleX")])) 0).dataset
        = "SampleX"
    ∧ (rowAt (derive_log_length (change_identifiers c1Df [("R1", "SampleX")])) 0).logLength
        = some (np_log10 10) := by
  have hv : validate_split_runs_file ["NAME\tRUN_ID", "SampleX\tR1"] = .ok [("R1", "SampleX")] :=
    by decide
  refine ⟨hv, ?_, by decide, rfl, ?_, ?_⟩
  · simp [nanocomp_main, c1Args, hv, Except.map]
  · rfl
  · rfl

/-- C1 amended: when the run does not abort on the mapping file, the raw
export artifact is present exactly when the raw flag is set, always under
the fixed file name in the working directory regardless of the configured
output directory, and it holds the unified table exactly as ingested —
before run-identifier remapping and before log-length derivation (the
pipeline order is Raw Export, then Remapper, then Deriver inside the
orchestrator). -/
theorem c1_raw_export_pre_remap (args : Args) (df : List Row) :
    (nanocomp_main args df).map RunResult.rawExport
      = (match args.split_runs with
         | some lines => (validate_split_runs_file lines).map (fun _ => ())
         | none => Except.ok ()).map
          (fun _ => if args.raw then some ("NanoComp-data.tsv.gz", df) else none) := by
  unfold nanocomp_main
  cases hs : args.split_runs with
  | none => simp [Except.map]
  | some lines =>
      cases hv : validate_split_runs_file lines with
      | ok d => simp [hv, Except.map]
      | error e => simp [hv, Except.map]

end NanoComp
